import Mathlib

/-
Verification development for the snowplow-rust-tracker delivery core.

The definitions below are a shallow embedding of the Rust source:
  - src/error.rs                            (Error)
  - src/payload.rs                          (Payload / PayloadBuilder)
  - src/event_batch.rs                      (EventBatch, has_retry, update_for_retry)
  - src/emitter/retry_policy.rs             (RetryPolicy)
  - src/emitter/batch_emitter.rs            (should_retry, add, flush, worker loop)
  - src/event_store/in_memory_event_store.rs (InMemoryEventStore)

Machine integers: the Rust code uses usize lengths, u16 status codes and u32
retry counters; none of the verified properties exercise overflow (queue
lengths are bounded by the configured capacity, status codes by 599), so they
are embedded as Nat.  Durations are embedded as exact rational numbers of
seconds; the properties proved about the backoff delay (monotonicity, the cap)
are properties of the exact arithmetic the code approximates.
-/

namespace SnowplowRustTracker

/-- Error kinds from src/error.rs (BuilderError / EmitterError / EventStoreError,
each carrying a message string). -/
inductive Error where
  | builderError (msg : String)
  | emitterError (msg : String)
  | eventStoreError (msg : String)
deriving DecidableEq

/-- Embedding of src/payload.rs Payload, reduced to the fields the delivery core
inspects: the unique event id eid (a UUID, embedded as Nat) and the mutable
sent-at timestamp stm (a millisecond string, embedded as Nat).  All other
fields are opaque payload data that the core never reads. -/
structure Payload where
  eid : Nat
  stm : Nat
deriving DecidableEq

/-- Embedding of the derive_builder generated PayloadBuilder for Payload,
reduced to the same fields as Payload. -/
structure PayloadBuilder where
  eid : Nat
  stm : Nat
deriving DecidableEq

/-- Modelled from the spec: PayloadBuilder::finalise_payload is called by the
in-memory event store (src/event_store/in_memory_event_store.rs line 90) but its
definition is not under src/.  The spec (section 3) says a Payload entering the
queue is already a complete record, built once by the external collaborator, and
that batch extraction only stamps the sent-at timestamp; so finalisation of a
queued payload always succeeds, producing the payload with the builder's
fields. -/
def finalise_payload (b : PayloadBuilder) : Except Error Payload :=
  Except.ok { eid := b.eid, stm := b.stm }

/-- Total companion of finalise_payload, used to state what the successful
finalisation of a queued builder returns. -/
def payloadOf (b : PayloadBuilder) : Payload :=
  { eid := b.eid, stm := b.stm }

/-- Embedding of src/emitter/retry_policy.rs RetryPolicy. -/
inductive RetryPolicy where
  | retryForever
  | maxRetries (n : Nat)
  | noRetry
deriving DecidableEq

/-- Embedding of src/event_batch.rs EventBatch: batch id (the Uuid embedded as
Nat), the ordered payloads, the optional backoff delay (Duration embedded as an
exact rational number of seconds) and the retry attempt counter. -/
structure EventBatch where
  id : Nat
  events : List Payload
  delay : Option ℚ
  retry_attempts : Nat
deriving DecidableEq

namespace EventBatch

/-- Embedding of EventBatch::new (src/event_batch.rs lines 33-40): delay starts
unset and the attempt counter starts at 0. -/
def new (id : Nat) (events : List Payload) : EventBatch :=
  { id := id, events := events, delay := none, retry_attempts := 0 }

/-- Embedding of EventBatch::has_retry (src/event_batch.rs lines 51-57). -/
def has_retry (b : EventBatch) (retry_policy : RetryPolicy) : Bool :=
  match retry_policy with
  | .noRetry => false
  | .maxRetries n => b.retry_attempts < n
  | .retryForever => true

/-- Embedding of the max_event_delay_time constant inside
EventBatch::update_for_retry (src/event_batch.rs line 77):
Duration::from_secs(600_000), i.e. 600000 seconds. -/
def max_event_delay_time : ℚ := 600000

/-- Embedding of EventBatch::update_for_retry (src/event_batch.rs lines 76-90).
The random draw rand::thread_rng().gen_range(1.0..=3.0) is an external input to
the function, so it is passed as the explicit argument delay_mul; the sets of
values the generator can produce are described separately below.  Duration
arithmetic (mul_f32 followed by min with the ceiling) is embedded as exact
rational arithmetic. -/
def update_for_retry (b : EventBatch) (delay_mul : ℚ) : EventBatch :=
  { b with
    retry_attempts := b.retry_attempts + 1,
    delay :=
      match b.delay with
      | some delay => some (min (delay * delay_mul) max_event_delay_time)
      | none => some 1 }

end EventBatch

/-- Lower bound of the range literal 1.0..=3.0 passed to gen_range in
EventBatch::update_for_retry (src/event_batch.rs line 84). -/
def retry_delay_mul_lo : ℚ := 1

/-- Upper bound of the range literal 1.0..=3.0 passed to gen_range in
EventBatch::update_for_retry (src/event_batch.rs line 84); the ..= range form
includes its upper bound. -/
def retry_delay_mul_hi : ℚ := 3

/-- Set of factors the source's inclusive range 1.0..=3.0 can produce:
gen_range on an inclusive range returns any value between the bounds, the
bounds themselves included. -/
def retry_delay_mul_can_draw (f : ℚ) : Prop :=
  retry_delay_mul_lo ≤ f ∧ f ≤ retry_delay_mul_hi

instance (f : ℚ) : Decidable (retry_delay_mul_can_draw f) := by
  unfold retry_delay_mul_can_draw
  infer_instance

/-- Stated from the spec's words for comparison with the code (refinement
check for the backoff factor): the spec says the factor is drawn from the
half-open interval [1.0, 3.0). -/
def spec_delay_mul_range (f : ℚ) : Prop := 1 ≤ f ∧ f < 3

instance (f : ℚ) : Decidable (spec_delay_mul_range f) := by
  unfold spec_delay_mul_range
  infer_instance

namespace BatchEmitter

/-- Embedding of the DONT_RETRY_STATUS_CODES constant
(src/emitter/batch_emitter.rs line 119). -/
def DONT_RETRY_STATUS_CODES : List Nat := [400, 401, 403, 410, 422]

/-- Embedding of BatchEmitter::is_successful_response
(src/emitter/batch_emitter.rs lines 173-175): code >= 200 && code < 300. -/
def is_successful_response (code : Nat) : Bool :=
  decide (200 ≤ code) && decide (code < 300)

/-- Embedding of BatchEmitter::should_retry (src/emitter/batch_emitter.rs
lines 178-183): false on a successful response, otherwise true unless the code
is in DONT_RETRY_STATUS_CODES. -/
def should_retry (code : Nat) : Bool :=
  match is_successful_response code with
  | true => false
  | false => !(DONT_RETRY_STATUS_CODES.contains code)

end BatchEmitter

/-- Embedding of InMemoryEventStoreQueue
(src/event_store/in_memory_event_store.rs lines 23-26): the Vec of queued
payload builders and the configured maximum capacity.  The source guards every
push with a comparison against the Vec capacity allocated by
Vec::with_capacity(capacity), so the Vec never reallocates and its capacity
stays the configured one; the embedding therefore keeps a single capacity
field. -/
structure InMemoryEventStoreQueue where
  queue : List PayloadBuilder
  capacity : Nat
deriving DecidableEq

/-- Embedding of InMemoryEventStoreQueue::push
(src/event_store/in_memory_event_store.rs lines 41-47): errors when the queue
length equals the capacity, otherwise appends the payload. -/
def InMemoryEventStoreQueue.push (q : InMemoryEventStoreQueue)
    (payload : PayloadBuilder) : Except Error InMemoryEventStoreQueue :=
  if q.queue.length = q.capacity then
    Except.error (Error.eventStoreError "Event store is full")
  else
    Except.ok { q with queue := q.queue ++ [payload] }

/-- Embedding of InMemoryEventStore
(src/event_store/in_memory_event_store.rs lines 51-54). -/
structure InMemoryEventStore where
  event_queue : InMemoryEventStoreQueue
  batch_size : Nat
deriving DecidableEq

namespace InMemoryEventStore

/-- Embedding of InMemoryEventStore::len (EventStore impl,
src/event_store/in_memory_event_store.rs lines 108-110). -/
def len (s : InMemoryEventStore) : Nat := s.event_queue.queue.length

/-- Embedding of InMemoryEventStore::capacity (EventStore impl,
src/event_store/in_memory_event_store.rs lines 112-114). -/
def capacity (s : InMemoryEventStore) : Nat := s.event_queue.capacity

/-- Embedding of InMemoryEventStore::add (EventStore impl,
src/event_store/in_memory_event_store.rs lines 104-106).  The Rust method
mutates the receiver, so the embedding returns the result together with the
store after the call; on the error path push leaves the queue untouched. -/
def add (s : InMemoryEventStore) (event : PayloadBuilder) :
    Except Error Unit × InMemoryEventStore :=
  match s.event_queue.push event with
  | .error e => (.error e, s)
  | .ok q2 => (.ok (), { s with event_queue := q2 })

/-- Embedding of InMemoryEventStore::event_batch
(src/event_store/in_memory_event_store.rs lines 74-100).  The result is paired
with the store after the call: the two early checks precede the drain and
leave the queue unchanged; the drain removes the first size elements before
finalisation and before the first-event check, so the later error paths return
the drained store.  (The source's drain(0..size) would panic if size exceeded
the queue length; both callers check size against the length first, and
List.take / List.drop agree with drain on every call the source makes.) -/
def event_batch (s : InMemoryEventStore) (size : Nat) :
    Except Error EventBatch × InMemoryEventStore :=
  if s.event_queue.queue.isEmpty then
    (.error (Error.eventStoreError "Event store is empty"), s)
  else if s.batch_size < size then
    (.error (Error.eventStoreError "Not enough events to create batch"), s)
  else
    let drained := s.event_queue.queue.take size
    let s2 : InMemoryEventStore :=
      { s with event_queue :=
          { s.event_queue with queue := s.event_queue.queue.drop size } }
    match drained.mapM finalise_payload with
    | .error e => (.error e, s2)
    | .ok events_to_send =>
      match events_to_send.head? with
      | none => (.error (Error.eventStoreError "No events to send"), s2)
      | some first => (.ok (EventBatch.new first.eid events_to_send), s2)

/-- Embedding of InMemoryEventStore::full_batch (EventStore impl,
src/event_store/in_memory_event_store.rs lines 116-124). -/
def full_batch (s : InMemoryEventStore) :
    Except Error EventBatch × InMemoryEventStore :=
  if s.event_queue.queue.length < s.batch_size then
    (.error (Error.eventStoreError
      "Failed to get batch: Not enough events in the event store for a full batch"), s)
  else
    s.event_batch s.batch_size

/-- Embedding of InMemoryEventStore::batch_of (EventStore impl,
src/event_store/in_memory_event_store.rs lines 126-133). -/
def batch_of (s : InMemoryEventStore) (size : Nat) :
    Except Error EventBatch × InMemoryEventStore :=
  if s.event_queue.queue.length < size then
    (.error (Error.eventStoreError
      "Requested batch size is greater than queue length"), s)
  else
    s.event_batch size

end InMemoryEventStore

/-- Finalisation of a queued payload builder never fails and collects to the
mapped payload list, mirroring the collect::<Result<Vec<Payload>, Error>> call
on the drained events. -/
theorem mapM_finalise_loop (l : List PayloadBuilder) (acc : List Payload) :
    List.mapM.loop finalise_payload l acc =
      Except.ok (acc.reverse ++ l.map payloadOf) := by
  induction l generalizing acc with
  | nil =>
    simp [List.mapM.loop]
    rfl
  | cons p rest ih =>
    simp [List.mapM.loop, finalise_payload, ih, payloadOf]
    rfl

theorem mapM_finalise (l : List PayloadBuilder) :
    l.mapM finalise_payload = Except.ok (l.map payloadOf) := by
  simp [List.mapM, mapM_finalise_loop]

/-- Batch produced by draining the first size payloads of a queue headed by p:
the events are the finalised drained payloads in arrival order, the id is the
first drained payload's event id, and the retry bookkeeping is fresh. -/
theorem event_batch_ok (s : InMemoryEventStore) (size : Nat)
    (p : PayloadBuilder) (rest : List PayloadBuilder)
    (hq : s.event_queue.queue = p :: rest)
    (hsize : 1 ≤ size) (hbs : size ≤ s.batch_size) :
    s.event_batch size =
      (Except.ok
        { id := p.eid,
          events := (s.event_queue.queue.take size).map payloadOf,
          delay := none,
          retry_attempts := 0 },
       { s with event_queue :=
          { s.event_queue with queue := s.event_queue.queue.drop size } }) := by
  obtain ⟨⟨q, cap⟩, bs⟩ := s
  simp only [InMemoryEventStore.event_batch] at *
  subst hq
  obtain ⟨k, rfl⟩ : ∃ k, size = k + 1 := ⟨size - 1, by omega⟩
  simp only [List.isEmpty_cons, Bool.false_eq_true, if_false, if_neg (by omega : ¬ bs < k + 1),
    mapM_finalise, List.take_succ_cons, List.map_cons, List.head?_cons]
  rfl

/-- Failure of event_batch leaves the store unchanged: the emptiness and size
checks precede the drain, a failing finalisation cannot happen, and the
no-events error only occurs for size = 0, where the drain removes nothing. -/
theorem event_batch_error (s : InMemoryEventStore) (size : Nat) (e : Error)
    (herr : (s.event_batch size).1 = Except.error e) :
    (s.event_batch size).2 = s := by
  obtain ⟨⟨q, cap⟩, bs⟩ := s
  simp only [InMemoryEventStore.event_batch] at *
  by_cases hemp : q.isEmpty
  · simp [hemp]
  · by_cases hsz : bs < size
    · simp [hemp, hsz]
    · cases q with
      | nil => simp at hemp
      | cons p rest =>
        cases size with
        | zero => simp [hemp, hsz, List.mapM, mapM_finalise_loop]
        | succ k =>
          simp [hemp, hsz, List.mapM, mapM_finalise_loop] at herr

/-- Store configured with batch_size 0 (InMemoryEventStore::new accepts any
batch size) and an empty queue; exhibits the boundary case of C2. -/
def c2_store : InMemoryEventStore :=
  { event_queue := { queue := [], capacity := 10 }, batch_size := 0 }

/-- C2 counterexample: in the store configured with batch_size = 0 and an
empty queue, len() >= batch_size holds (0 >= 0) yet full_batch() fails with
the emptiness error from event_batch, so full_batch does not succeed whenever
len() >= batch_size. -/
theorem C2_full_batch_counterexample :
    c2_store.batch_size ≤ c2_store.len ∧
      (c2_store.full_batch).1 =
        Except.error (Error.eventStoreError "Event store is empty") :=
  ⟨Nat.le_refl 0, rfl⟩

/-- C2 (amended: for batch_size >= 1): full_batch() succeeds iff
len() >= batch_size; on success it removes exactly the first batch_size
payloads in arrival order (the remaining queue is the drop, so len() decreases
by batch_size), the batch's events are the finalised removed payloads in
order, its id is the first removed payload's event id, and its retry
bookkeeping is fresh (attempt count 0, no delay); on failure the store is
unchanged. -/
theorem C2_full_batch_spec (s : InMemoryEventStore) (hbs : 1 ≤ s.batch_size) :
    ((∃ b, (s.full_batch).1 = Except.ok b) ↔ s.batch_size ≤ s.len) ∧
    (∀ b, (s.full_batch).1 = Except.ok b →
      (s.full_batch).2.event_queue.queue = s.event_queue.queue.drop s.batch_size ∧
      (s.full_batch).2.len = s.len - s.batch_size ∧
      b.events = (s.event_queue.queue.take s.batch_size).map payloadOf ∧
      (∃ p rest, s.event_queue.queue = p :: rest ∧ b.id = p.eid) ∧
      b.retry_attempts = 0 ∧ b.delay = none) ∧
    (∀ e, (s.full_batch).1 = Except.error e → (s.full_batch).2 = s) := by
  unfold InMemoryEventStore.len at *
  by_cases hlen : s.event_queue.queue.length < s.batch_size
  · have h1 : s.full_batch =
        (Except.error (Error.eventStoreError
          "Failed to get batch: Not enough events in the event store for a full batch"), s) := by
      unfold InMemoryEventStore.full_batch
      rw [if_pos hlen]
    rw [h1]
    refine ⟨?_, ?_, ?_⟩
    · simp
      omega
    · intro b hb
      simp at hb
    · intro e _
      rfl
  · obtain ⟨p, rest, hq⟩ : ∃ p rest, s.event_queue.queue = p :: rest := by
      cases hq2 : s.event_queue.queue with
      | nil => rw [hq2] at hlen; simp at hlen; omega
      | cons p rest => exact ⟨p, rest, rfl⟩
    have hfb : s.full_batch = s.event_batch s.batch_size := by
      unfold InMemoryEventStore.full_batch
      rw [if_neg hlen]
    rw [hfb, event_batch_ok s s.batch_size p rest hq hbs (Nat.le_refl _)]
    refine ⟨?_, ?_, ?_⟩
    · simp
      omega
    · intro b hb
      simp at hb
      subst hb
      refine ⟨rfl, ?_, ?_, ⟨p, rest, hq, rfl⟩, rfl, rfl⟩
      · simp [InMemoryEventStore.len]
      · simp [List.map_take]
    · intro e he
      simp at he

/-- Witness for C2 (amended) at a store with batch_size 2 and three queued
payloads. -/
theorem C2_full_batch_spec_witness :
    (1 ≤ (InMemoryEventStore.mk
        { queue := [⟨5, 0⟩, ⟨6, 0⟩, ⟨7, 0⟩], capacity := 4 } 2).batch_size) ∧
    (((∃ b, ((InMemoryEventStore.mk
        { queue := [⟨5, 0⟩, ⟨6, 0⟩, ⟨7, 0⟩], capacity := 4 } 2).full_batch).1 =
          Except.ok b) ↔
      (InMemoryEventStore.mk
        { queue := [⟨5, 0⟩, ⟨6, 0⟩, ⟨7, 0⟩], capacity := 4 } 2).batch_size ≤
        (InMemoryEventStore.mk
          { queue := [⟨5, 0⟩, ⟨6, 0⟩, ⟨7, 0⟩], capacity := 4 } 2).len) ∧
    (∀ b, (((InMemoryEventStore.mk
        { queue := [⟨5, 0⟩, ⟨6, 0⟩, ⟨7, 0⟩], capacity := 4 } 2).full_batch).1 =
          Except.ok b) →
      ((InMemoryEventStore.mk
        { queue := [⟨5, 0⟩, ⟨6, 0⟩, ⟨7, 0⟩], capacity := 4 } 2).full_batch).2.event_queue.queue =
        (InMemoryEventStore.mk
          { queue := [⟨5, 0⟩, ⟨6, 0⟩, ⟨7, 0⟩], capacity := 4 } 2).event_queue.queue.drop
          (InMemoryEventStore.mk
            { queue := [⟨5, 0⟩, ⟨6, 0⟩, ⟨7, 0⟩], capacity := 4 } 2).batch_size ∧
      ((InMemoryEventStore.mk
        { queue := [⟨5, 0⟩, ⟨6, 0⟩, ⟨7, 0⟩], capacity := 4 } 2).full_batch).2.len =
        (InMemoryEventStore.mk
          { queue := [⟨5, 0⟩, ⟨6, 0⟩, ⟨7, 0⟩], capacity := 4 } 2).len -
          (InMemoryEventStore.mk
            { queue := [⟨5, 0⟩, ⟨6, 0⟩, ⟨7, 0⟩], capacity := 4 } 2).batch_size ∧
      b.events = ((InMemoryEventStore.mk
          { queue := [⟨5, 0⟩, ⟨6, 0⟩, ⟨7, 0⟩], capacity := 4 } 2).event_queue.queue.take
          (InMemoryEventStore.mk
            { queue := [⟨5, 0⟩, ⟨6, 0⟩, ⟨7, 0⟩], capacity := 4 } 2).batch_size).map payloadOf ∧
      (∃ p rest, (InMemoryEventStore.mk
          { queue := [⟨5, 0⟩, ⟨6, 0⟩, ⟨7, 0⟩], capacity := 4 } 2).event_queue.queue =
          p :: rest ∧ b.id = p.eid) ∧
      b.retry_attempts = 0 ∧ b.delay = none) ∧
    (∀ e, (((InMemoryEventStore.mk
        { queue := [⟨5, 0⟩, ⟨6, 0⟩, ⟨7, 0⟩], capacity := 4 } 2).full_batch).1 =
          Except.error e) →
      ((InMemoryEventStore.mk
        { queue := [⟨5, 0⟩, ⟨6, 0⟩, ⟨7, 0⟩], capacity := 4 } 2).full_batch).2 =
        InMemoryEventStore.mk
          { queue := [⟨5, 0⟩, ⟨6, 0⟩, ⟨7, 0⟩], capacity := 4 } 2)) :=
  ⟨by decide,
    C2_full_batch_spec
      (InMemoryEventStore.mk
        { queue := [⟨5, 0⟩, ⟨6, 0⟩, ⟨7, 0⟩], capacity := 4 } 2) (by decide)⟩

/-- C3: add(payload) fails if and only if the current length equals the
configured capacity; a successful add appends the payload so len() grows by
exactly one, and a failing add leaves the store unchanged. -/
theorem C3_add_spec (s : InMemoryEventStore) (p : PayloadBuilder) :
    ((s.add p).1 = Except.ok () ↔ s.len ≠ s.capacity) ∧
    (s.add p).2.len = (if s.len = s.capacity then s.len else s.len + 1) ∧
    ((s.add p).1 = Except.ok () ∨ (s.add p).2 = s) := by
  unfold InMemoryEventStore.add InMemoryEventStore.len InMemoryEventStore.capacity
    InMemoryEventStoreQueue.push
  by_cases hc : s.event_queue.queue.length = s.event_queue.capacity
  · simp [hc]
  · simp [hc]

/-- Witness for C3 at a store holding one payload below capacity. -/
theorem C3_add_spec_witness :
    (((InMemoryEventStore.mk { queue := [⟨1, 0⟩], capacity := 2 } 2).add
        ⟨2, 0⟩).1 = Except.ok () ↔
      (InMemoryEventStore.mk { queue := [⟨1, 0⟩], capacity := 2 } 2).len ≠
        (InMemoryEventStore.mk { queue := [⟨1, 0⟩], capacity := 2 } 2).capacity) ∧
    ((InMemoryEventStore.mk { queue := [⟨1, 0⟩], capacity := 2 } 2).add
        ⟨2, 0⟩).2.len =
      (if (InMemoryEventStore.mk { queue := [⟨1, 0⟩], capacity := 2 } 2).len =
          (InMemoryEventStore.mk { queue := [⟨1, 0⟩], capacity := 2 } 2).capacity then
        (InMemoryEventStore.mk { queue := [⟨1, 0⟩], capacity := 2 } 2).len
      else
        (InMemoryEventStore.mk { queue := [⟨1, 0⟩], capacity := 2 } 2).len + 1) ∧
    (((InMemoryEventStore.mk { queue := [⟨1, 0⟩], capacity := 2 } 2).add
        ⟨2, 0⟩).1 = Except.ok () ∨
      ((InMemoryEventStore.mk { queue := [⟨1, 0⟩], capacity := 2 } 2).add
        ⟨2, 0⟩).2 = InMemoryEventStore.mk { queue := [⟨1, 0⟩], capacity := 2 } 2) :=
  C3_add_spec (InMemoryEventStore.mk { queue := [⟨1, 0⟩], capacity := 2 } 2) ⟨2, 0⟩

/-- Store with batch_size 2 but three queued payloads (capacity 4); exhibits
the failure of C4 for n strictly between batch_size and the queue length. -/
def c4_store : InMemoryEventStore :=
  { event_queue :=
      { queue := [⟨0, 0⟩, ⟨1, 0⟩, ⟨2, 0⟩], capacity := 4 }, batch_size := 2 }

/-- C4 counterexample: with three queued payloads and batch_size 2, the call
batch_of(3) has 3 <= len() and a non-empty queue, yet it fails (with the
size-above-batch_size error from event_batch), so batch_of(n) does not succeed
whenever n <= len() and the queue is non-empty. -/
theorem C4_batch_of_counterexample :
    3 ≤ c4_store.len ∧ c4_store.event_queue.queue ≠ [] ∧
      (c4_store.batch_of 3).1 =
        Except.error (Error.eventStoreError "Not enough events to create batch") :=
  ⟨by decide, by decide, rfl⟩

/-- C4 (amended): batch_of(n) succeeds iff 1 <= n and n <= len() and
n <= batch_size — equivalently, it fails iff the queue is empty, n = 0,
n > len(), or n > batch_size (the last failure case is absent from the
original claim); on success it removes exactly the first n payloads from the
front of the queue and returns them, finalised in arrival order, as the
batch's events; on failure the store is unchanged. -/
theorem C4_batch_of_spec (s : InMemoryEventStore) (n : Nat) :
    ((∃ b, (s.batch_of n).1 = Except.ok b) ↔
      (1 ≤ n ∧ n ≤ s.len ∧ n ≤ s.batch_size)) ∧
    (∀ b, (s.batch_of n).1 = Except.ok b →
      (s.batch_of n).2.event_queue.queue = s.event_queue.queue.drop n ∧
      b.events = (s.event_queue.queue.take n).map payloadOf) ∧
    (∀ e, (s.batch_of n).1 = Except.error e → (s.batch_of n).2 = s) := by
  unfold InMemoryEventStore.len
  by_cases hlen : s.event_queue.queue.length < n
  · have h1 : s.batch_of n =
        (Except.error (Error.eventStoreError
          "Requested batch size is greater than queue length"), s) := by
      unfold InMemoryEventStore.batch_of
      rw [if_pos hlen]
    rw [h1]
    refine ⟨by simp; omega, by intro b hb; simp at hb, by intro e _; rfl⟩
  · have hof : s.batch_of n = s.event_batch n := by
      unfold InMemoryEventStore.batch_of
      rw [if_neg hlen]
    rw [hof]
    by_cases hn1 : 1 ≤ n
    · by_cases hsz : n ≤ s.batch_size
      · obtain ⟨p, rest, hq⟩ : ∃ p rest, s.event_queue.queue = p :: rest := by
          cases hq2 : s.event_queue.queue with
          | nil => rw [hq2] at hlen; simp at hlen; omega
          | cons p rest => exact ⟨p, rest, rfl⟩
        rw [event_batch_ok s n p rest hq hn1 hsz]
        refine ⟨by simp; omega, ?_, by intro e he; simp at he⟩
        intro b hb
        simp at hb
        subst hb
        exact ⟨rfl, by simp [List.map_take]⟩
      · have herr : ∃ e, (s.event_batch n).1 = Except.error e := by
          unfold InMemoryEventStore.event_batch
          have hemp : s.event_queue.queue.isEmpty = false := by
            cases hq2 : s.event_queue.queue with
            | nil => rw [hq2] at hlen; simp at hlen; omega
            | cons p rest => simp
          rw [hemp]
          simp only [Bool.false_eq_true, if_false]
          rw [if_pos (by omega : s.batch_size < n)]
          exact ⟨_, rfl⟩
        obtain ⟨e, he⟩ := herr
        refine ⟨?_, ?_, ?_⟩
        · constructor
          · rintro ⟨b, hb⟩
            rw [he] at hb
            simp at hb
          · rintro ⟨_, _, h3⟩
            omega
        · intro b hb
          rw [he] at hb
          simp at hb
        · intro e2 _
          exact event_batch_error s n e he
    · have hn0 : n = 0 := by omega
      subst hn0
      have he : (s.event_batch 0).1 = Except.error (Error.eventStoreError "Event store is empty") ∨
          (s.event_batch 0).1 = Except.error (Error.eventStoreError "No events to send") := by
        unfold InMemoryEventStore.event_batch
        cases hq2 : s.event_queue.queue with
        | nil => simp
        | cons p rest => simp [List.mapM, mapM_finalise_loop]
      have herr : ∃ e, (s.event_batch 0).1 = Except.error e := by
        rcases he with h | h
        · exact ⟨_, h⟩
        · exact ⟨_, h⟩
      obtain ⟨e, hee⟩ := herr
      refine ⟨?_, ?_, ?_⟩
      · constructor
        · rintro ⟨b, hb⟩
          rw [hee] at hb
          simp at hb
        · rintro ⟨h1, _, _⟩
          omega
      · intro b hb
        rw [hee] at hb
        simp at hb
      · intro e2 _
        exact event_batch_error s 0 e hee

/-- Witness for C4 at the concrete call batch_of(2) on a store with three
queued payloads and batch_size 2. -/
theorem C4_batch_of_spec_witness :
    ((∃ b, ((InMemoryEventStore.mk
        { queue := [⟨0, 0⟩, ⟨1, 0⟩, ⟨2, 0⟩], capacity := 4 } 2).batch_of 2).1 =
          Except.ok b) ↔
      (1 ≤ 2 ∧ 2 ≤ (InMemoryEventStore.mk
        { queue := [⟨0, 0⟩, ⟨1, 0⟩, ⟨2, 0⟩], capacity := 4 } 2).len ∧
        2 ≤ (InMemoryEventStore.mk
          { queue := [⟨0, 0⟩, ⟨1, 0⟩, ⟨2, 0⟩], capacity := 4 } 2).batch_size)) ∧
    (∀ b, (((InMemoryEventStore.mk
        { queue := [⟨0, 0⟩, ⟨1, 0⟩, ⟨2, 0⟩], capacity := 4 } 2).batch_of 2).1 =
          Except.ok b) →
      ((InMemoryEventStore.mk
        { queue := [⟨0, 0⟩, ⟨1, 0⟩, ⟨2, 0⟩], capacity := 4 } 2).batch_of 2).2.event_queue.queue =
        (InMemoryEventStore.mk
          { queue := [⟨0, 0⟩, ⟨1, 0⟩, ⟨2, 0⟩], capacity := 4 } 2).event_queue.queue.drop 2 ∧
      b.events = ((InMemoryEventStore.mk
        { queue := [⟨0, 0⟩, ⟨1, 0⟩, ⟨2, 0⟩], capacity := 4 } 2).event_queue.queue.take 2).map
          payloadOf) ∧
    (∀ e, (((InMemoryEventStore.mk
        { queue := [⟨0, 0⟩, ⟨1, 0⟩, ⟨2, 0⟩], capacity := 4 } 2).batch_of 2).1 =
          Except.error e) →
      ((InMemoryEventStore.mk
        { queue := [⟨0, 0⟩, ⟨1, 0⟩, ⟨2, 0⟩], capacity := 4 } 2).batch_of 2).2 =
        InMemoryEventStore.mk
          { queue := [⟨0, 0⟩, ⟨1, 0⟩, ⟨2, 0⟩], capacity := 4 } 2) :=
  C4_batch_of_spec
    (InMemoryEventStore.mk
      { queue := [⟨0, 0⟩, ⟨1, 0⟩, ⟨2, 0⟩], capacity := 4 } 2) 2

/-- C1: for every status code in 0-599, BatchEmitter::should_retry(code)
returns true if and only if the code is not in the success range [200,300) and
not in the fixed non-retryable set {400, 401, 403, 410, 422}. -/
theorem C1_should_retry_iff (code : Nat) (hcode : code ≤ 599) :
    BatchEmitter.should_retry code = true ↔
      ¬(200 ≤ code ∧ code < 300) ∧
        code ∉ ([400, 401, 403, 410, 422] : List Nat) := by
  unfold BatchEmitter.should_retry BatchEmitter.is_successful_response
    BatchEmitter.DONT_RETRY_STATUS_CODES
  by_cases hsucc : 200 ≤ code ∧ code < 300
  · simp [hsucc, decide_eq_true_eq, hsucc.1, hsucc.2]
  · have : (decide (200 ≤ code) && decide (code < 300)) = false := by
      rcases Decidable.not_and_iff_or_not.mp hsucc with h | h <;> simp [h]
    simp only [this]
    simp [List.contains, hsucc]

/-- Witness for C1 at the concrete status code 500. -/
theorem C1_should_retry_iff_witness :
    (500 : Nat) ≤ 599 ∧
      (BatchEmitter.should_retry 500 = true ↔
        ¬(200 ≤ 500 ∧ 500 < 300) ∧
          (500 : Nat) ∉ ([400, 401, 403, 410, 422] : List Nat)) :=
  ⟨by decide, C1_should_retry_iff 500 (by decide)⟩

/-- Embedding of EmitterMessage (src/emitter/batch_emitter.rs lines 41-47). -/
inductive EmitterMessage where
  | send (batch : EventBatch)
  | close
deriving DecidableEq

/-- Model of the bounded tokio mpsc command channel whose sender the
BatchEmitter holds (field tx): the buffered messages in order, the channel
capacity (create_emitter sizes it to the event store capacity,
src/emitter/batch_emitter.rs line 139) and whether the receiver side is gone. -/
structure EmitterChannel where
  buffer : List EmitterMessage
  capacity : Nat
  closed : Bool
deriving DecidableEq

/-- Model of tokio's Sender::try_send as used by add, flush and close: it
fails when the receiver is closed or when no buffer slot is free (the source
converts the error to an EmitterError via to_string), otherwise it appends the
message to the channel buffer. -/
def EmitterChannel.try_send (c : EmitterChannel) (m : EmitterMessage) :
    Except Error EmitterChannel :=
  if c.closed then Except.error (Error.emitterError "channel closed")
  else if c.buffer.length = c.capacity then
    Except.error (Error.emitterError "no available capacity")
  else Except.ok { c with buffer := c.buffer ++ [m] }

/-- State a BatchEmitter acts on from the producer side: the shared event
store and the command channel to the delivery worker. -/
structure BatchEmitterState where
  event_store : InMemoryEventStore
  tx : EmitterChannel
deriving DecidableEq

namespace BatchEmitter

/-- Embedding of BatchEmitter::add (Emitter impl,
src/emitter/batch_emitter.rs lines 405-431): add the payload to the store
(propagating a store error), then extract a full batch if the store has one
and try_send it on the command channel; a full-batch extraction error is
swallowed and add still succeeds, while a try_send failure is returned to the
caller after the batch has already been removed from the store. -/
def add (st : BatchEmitterState) (payload : PayloadBuilder) :
    Except Error Unit × BatchEmitterState :=
  match st.event_store.add payload with
  | (.error e, _) => (.error e, st)
  | (.ok _, store1) =>
    match store1.full_batch with
    | (.ok batch, store2) =>
      match st.tx.try_send (.send batch) with
      | .ok tx2 => (.ok (), { event_store := store2, tx := tx2 })
      | .error e => (.error e, { event_store := store2, tx := st.tx })
    | (.error _, store2) => (.ok (), { event_store := store2, tx := st.tx })

/-- Embedding of the while-let loop of BatchEmitter::flush
(src/emitter/batch_emitter.rs lines 444-448): keep extracting full batches and
try_send each one, stopping at the first full_batch error; a try_send failure
aborts the loop with that error (the extracted batch is already out of the
store).  The fuel argument only bounds the recursion for Lean: the Rust loop
terminates because a successful full_batch removes batch_size >= 1 events
(and with batch_size = 0 full_batch never succeeds), so a fuel of len + 1
is never exhausted before the loop exits. -/
def flush_loop : Nat → BatchEmitterState → BatchEmitterState × Option Error
  | 0, st => (st, none)
  | fuel + 1, st =>
    match st.event_store.full_batch with
    | (.ok batch, store2) =>
      match st.tx.try_send (.send batch) with
      | .ok tx2 => flush_loop fuel { event_store := store2, tx := tx2 }
      | .error e => ({ event_store := store2, tx := st.tx }, some e)
    | (.error _, _) => (st, none)

/-- Embedding of BatchEmitter::flush (Emitter impl,
src/emitter/batch_emitter.rs lines 434-460): drain full batches in a loop,
then put the remaining events in a final batch via batch_of(len()) — the
question-mark operator propagates a batch_of error — and try_send it. -/
def flush (st : BatchEmitterState) : Except Error Unit × BatchEmitterState :=
  match flush_loop (st.event_store.len + 1) st with
  | (st1, some e) => (.error e, st1)
  | (st1, none) =>
    let remaining_events := st1.event_store.len
    match st1.event_store.batch_of remaining_events with
    | (.error e, store2) => (.error e, { event_store := store2, tx := st1.tx })
    | (.ok final_batch, store2) =>
      match st1.tx.try_send (.send final_batch) with
      | .error e => (.error e, { event_store := store2, tx := st1.tx })
      | .ok tx2 => (.ok (), { event_store := store2, tx := tx2 })

end BatchEmitter

/-- Successful store add appends the payload to the back of the queue and
changes nothing else. -/
theorem add_ok_spec (s : InMemoryEventStore) (p : PayloadBuilder)
    (h : (s.add p).1 = Except.ok ()) :
    (s.add p).2 =
      { s with event_queue :=
          { s.event_queue with queue := s.event_queue.queue ++ [p] } } := by
  unfold InMemoryEventStore.add InMemoryEventStoreQueue.push at *
  by_cases hc : s.event_queue.queue.length = s.event_queue.capacity
  · simp [hc] at h
  · simp [hc]

/-- Successful full_batch implies batch_size >= 1, requires a big enough
queue, drops the first batch_size payloads, and returns them finalised in
order as the batch's events. -/
theorem full_batch_ok_spec (s : InMemoryEventStore) (b : EventBatch)
    (h : (s.full_batch).1 = Except.ok b) :
    1 ≤ s.batch_size ∧ s.batch_size ≤ s.len ∧
    (s.full_batch).2 =
      { s with event_queue :=
          { s.event_queue with queue := s.event_queue.queue.drop s.batch_size } } ∧
    b.events = (s.event_queue.queue.take s.batch_size).map payloadOf := by
  unfold InMemoryEventStore.len
  by_cases hlen : s.event_queue.queue.length < s.batch_size
  · unfold InMemoryEventStore.full_batch at h
    rw [if_pos hlen] at h
    simp at h
  · have hfb : s.full_batch = s.event_batch s.batch_size := by
      unfold InMemoryEventStore.full_batch
      rw [if_neg hlen]
    obtain ⟨p, rest, hq⟩ : ∃ p rest, s.event_queue.queue = p :: rest := by
      cases hq2 : s.event_queue.queue with
      | nil =>
        rw [hfb] at h
        unfold InMemoryEventStore.event_batch at h
        rw [hq2] at h
        simp at h
      | cons p rest => exact ⟨p, rest, rfl⟩
    by_cases hbs : 1 ≤ s.batch_size
    · rw [hfb, event_batch_ok s s.batch_size p rest hq hbs (Nat.le_refl _)] at h ⊢
      simp at h
      subst h
      refine ⟨hbs, by omega, rfl, by simp [List.map_take]⟩
    · have hbs0 : s.batch_size = 0 := by omega
      rw [hfb] at h
      unfold InMemoryEventStore.event_batch at h
      rw [hq, hbs0] at h
      simp [List.mapM, mapM_finalise_loop] at h

/-- Events carried by a command-channel message (empty for Close), used to
state which payloads flush hands to the delivery worker. -/
def sent_events (m : EmitterMessage) : List Payload :=
  match m with
  | .send b => b.events
  | .close => []

/-- Event id of the first payload of a finalised batch body (0 when empty;
the empty case never arises for a successfully extracted batch). -/
def first_eid (l : List Payload) : Nat :=
  match l.head? with
  | some p => p.eid
  | none => 0

/-- Send messages the flush while-loop enqueues when it extracts k full
batches from the front of queue l: each batch drains batch_size payloads off
the front, finalised in order, with the batch id taken from its first
payload. -/
def flush_sends (bs : Nat) : Nat → List PayloadBuilder → List EmitterMessage
  | 0, _ => []
  | k + 1, l =>
    EmitterMessage.send
      { id := first_eid ((l.take bs).map payloadOf),
        events := (l.take bs).map payloadOf,
        delay := none, retry_attempts := 0 }
      :: flush_sends bs k (l.drop bs)

/-- The flush loop enqueues one message per extracted batch. -/
theorem flush_sends_length (bs k : Nat) (l : List PayloadBuilder) :
    (flush_sends bs k l).length = k := by
  induction k generalizing l with
  | zero => rfl
  | succ k ih => simp [flush_sends, ih]

/-- Concatenating the events of the k full-batch Send messages recovers the
first k * batch_size payloads of the queue, finalised in order. -/
theorem flush_sends_events (bs k : Nat) (l : List PayloadBuilder) :
    ((flush_sends bs k l).map sent_events).flatten =
      (l.take (k * bs)).map payloadOf := by
  induction k generalizing l with
  | zero => simp [flush_sends]
  | succ k ih =>
    simp only [flush_sends, List.map_cons, List.flatten_cons, sent_events, ih]
    rw [show (k + 1) * bs = bs + k * bs by ring, List.take_add, List.map_append]

/-- Full characterisation of the flush while-loop on a live channel with
enough free slots: it extracts len / batch_size full batches, leaving the
queue remainder, and enqueues the corresponding Send messages. -/
theorem flush_loop_spec (fuel : Nat) (q : List PayloadBuilder)
    (cap bs : Nat) (buf : List EmitterMessage) (ccap : Nat)
    (hbs : 1 ≤ bs) (hfuel : q.length ≤ fuel * bs)
    (hcap : buf.length + q.length / bs ≤ ccap) :
    BatchEmitter.flush_loop fuel
      { event_store :=
          { event_queue := { queue := q, capacity := cap }, batch_size := bs },
        tx := { buffer := buf, capacity := ccap, closed := false } } =
      ({ event_store :=
           { event_queue := { queue := q.drop (q.length / bs * bs), capacity := cap },
             batch_size := bs },
         tx := { buffer := buf ++ flush_sends bs (q.length / bs) q,
                 capacity := ccap, closed := false } }, none) := by
  induction fuel generalizing q buf with
  | zero =>
    have h0 : q.length = 0 := by simpa using hfuel
    have hq : q = [] := List.eq_nil_of_length_eq_zero h0
    subst hq
    simp [BatchEmitter.flush_loop, flush_sends]
  | succ fuel ih =>
    by_cases hlt : q.length < bs
    · have hdiv0 : q.length / bs = 0 := Nat.div_eq_of_lt hlt
      have hfb : (InMemoryEventStore.mk (InMemoryEventStoreQueue.mk q cap) bs).full_batch =
          (Except.error (Error.eventStoreError
            "Failed to get batch: Not enough events in the event store for a full batch"),
           InMemoryEventStore.mk (InMemoryEventStoreQueue.mk q cap) bs) := by
        unfold InMemoryEventStore.full_batch
        rw [if_pos hlt]
      simp [BatchEmitter.flush_loop, hfb, hdiv0, flush_sends]
    · push_neg at hlt
      obtain ⟨p, rest, hq⟩ : ∃ p rest, q = p :: rest := by
        cases q with
        | nil => simp at hlt; omega
        | cons p rest => exact ⟨p, rest, rfl⟩
      have hfe : first_eid ((q.take bs).map payloadOf) = p.eid := by
        obtain ⟨m, rfl⟩ : ∃ m, bs = m + 1 := ⟨bs - 1, by omega⟩
        subst hq
        simp [first_eid, payloadOf]
      have hfb2 : (InMemoryEventStore.mk (InMemoryEventStoreQueue.mk q cap) bs).full_batch =
          (Except.ok
            { id := p.eid, events := (q.take bs).map payloadOf,
              delay := none, retry_attempts := 0 },
           InMemoryEventStore.mk (InMemoryEventStoreQueue.mk (q.drop bs) cap) bs) := by
        unfold InMemoryEventStore.full_batch
        rw [if_neg (show ¬ q.length < bs by omega)]
        exact event_batch_ok
          (InMemoryEventStore.mk (InMemoryEventStoreQueue.mk q cap) bs) bs p rest hq
          hbs (Nat.le_refl _)
      have hk1 : 1 ≤ q.length / bs := (Nat.one_le_div_iff (by omega)).mpr hlt
      have hts : (EmitterChannel.mk buf ccap false).try_send
            (EmitterMessage.send
              { id := p.eid, events := (q.take bs).map payloadOf,
                delay := none, retry_attempts := 0 }) =
          Except.ok (EmitterChannel.mk
            (buf ++ [EmitterMessage.send
              { id := p.eid, events := (q.take bs).map payloadOf,
                delay := none, retry_attempts := 0 }]) ccap false) := by
        unfold EmitterChannel.try_send
        rw [if_neg (by simp), if_neg (show ¬ buf.length = ccap by omega)]
      have hdiv : q.length / bs = (q.length - bs) / bs + 1 := by
        conv =>
          lhs
          rw [Nat.div_eq]
        rw [if_pos ⟨by omega, hlt⟩]
      have hlen2 : (q.drop bs).length = q.length - bs := by simp
      have hrec := ih (q.drop bs)
        (buf ++ [EmitterMessage.send
          { id := p.eid, events := (q.take bs).map payloadOf,
            delay := none, retry_attempts := 0 }])
        (by
          rw [hlen2]
          have hmul : (fuel + 1) * bs = fuel * bs + bs := by ring
          omega)
        (by
          rw [hlen2]
          simp only [List.length_append, List.length_cons, List.length_nil]
          omega)
      simp only [BatchEmitter.flush_loop, hfb2, hts, hrec]
      rw [Prod.mk.injEq]
      refine ⟨?_, rfl⟩
      have hqueue : (q.drop bs).drop ((q.drop bs).length / bs * bs) =
          q.drop (q.length / bs * bs) := by
        rw [List.drop_drop, hlen2, hdiv]
        congr 1
        ring
      have hsends : buf ++ [EmitterMessage.send
            { id := p.eid, events := (q.take bs).map payloadOf,
              delay := none, retry_attempts := 0 }] ++
            flush_sends bs ((q.drop bs).length / bs) (q.drop bs) =
          buf ++ flush_sends bs (q.length / bs) q := by
        rw [hlen2, hdiv, List.append_assoc]
        congr 1
        simp [flush_sends]
        rw [← List.map_take]
        exact hfe.symm
      rw [hqueue, hsends]

/-- Emitter state whose store holds exactly one full batch worth of events
(two payloads, batch_size 2) with a live, empty command channel. -/
def c5_state : BatchEmitterState :=
  { event_store :=
      { event_queue := { queue := [⟨0, 0⟩, ⟨1, 0⟩], capacity := 2 },
        batch_size := 2 },
    tx := { buffer := [], capacity := 2, closed := false } }

/-- C5 counterexample: flushing a store whose length (2) is an exact multiple
of batch_size (2) does drain the store (both events are handed over in one
Send command and the length reaches 0), yet flush returns an error rather
than ok: after the while-loop empties the queue, the final batch_of(0) fails
on the empty remainder and the question mark propagates its error. -/
theorem C5_flush_counterexample :
    (BatchEmitter.flush c5_state).1 =
      Except.error (Error.eventStoreError "Event store is empty") ∧
    (BatchEmitter.flush c5_state).2.event_store.len = 0 ∧
    (BatchEmitter.flush c5_state).2.tx.buffer =
      [EmitterMessage.send
        { id := 0, events := [{ eid := 0, stm := 0 }, { eid := 1, stm := 0 }],
          delay := none, retry_attempts := 0 }] :=
  ⟨rfl, rfl, rfl⟩

/-- C5 (amended): on a live channel with enough free slots and
batch_size >= 1, flush() always drains the store to length 0 and every queued
payload is handed to the worker, in order, inside the enqueued Send commands
(zero or more full batches plus a final partial batch when the remainder is
non-zero); but it returns ok only when len() mod batch_size is non-zero — when
len() is 0 or an exact multiple of batch_size the final batch_of call fails on
the empty remainder and flush reports an error even though the store is
already drained. -/
theorem C5_flush_spec (st : BatchEmitterState)
    (hbs : 1 ≤ st.event_store.batch_size)
    (hclosed : st.tx.closed = false)
    (hcap : st.tx.buffer.length +
        st.event_store.len / st.event_store.batch_size + 1 ≤ st.tx.capacity) :
    (BatchEmitter.flush st).2.event_store.len = 0 ∧
    ((BatchEmitter.flush st).1 = Except.ok () ↔
      ¬ st.event_store.len % st.event_store.batch_size = 0) ∧
    (∃ msgs, (BatchEmitter.flush st).2.tx.buffer = st.tx.buffer ++ msgs ∧
      (msgs.map sent_events).flatten =
        st.event_store.event_queue.queue.map payloadOf) := by
  obtain ⟨⟨⟨q, cap⟩, bs⟩, buf, ccap, closed⟩ := st
  simp only [InMemoryEventStore.len] at hcap hbs ⊢
  dsimp only at hcap hbs hclosed ⊢
  subst hclosed
  have hfuel : q.length ≤ (q.length + 1) * bs := by
    have h1 : (q.length + 1) * 1 ≤ (q.length + 1) * bs := Nat.mul_le_mul_left _ hbs
    omega
  have hcap2 : buf.length + q.length / bs ≤ ccap := by omega
  have hloop := flush_loop_spec (q.length + 1) q cap bs buf ccap hbs hfuel hcap2
  have hdm : q.length / bs * bs + q.length % bs = q.length := by
    rw [Nat.mul_comm]
    exact Nat.div_add_mod q.length bs
  have hsub : q.length - q.length / bs * bs = q.length % bs := by omega
  unfold BatchEmitter.flush
  simp only [InMemoryEventStore.len]
  rw [hloop]
  by_cases hr : q.length % bs = 0
  · have hkbs : q.length / bs * bs = q.length := by omega
    have hq1nil : q.drop (q.length / bs * bs) = [] := by
      rw [hkbs]
      simp
    rw [hq1nil]
    have hbo : (InMemoryEventStore.mk
          (InMemoryEventStoreQueue.mk ([] : List PayloadBuilder) cap) bs).batch_of
          ([] : List PayloadBuilder).length =
        (Except.error (Error.eventStoreError "Event store is empty"),
          InMemoryEventStore.mk
            (InMemoryEventStoreQueue.mk ([] : List PayloadBuilder) cap) bs) := by
      unfold InMemoryEventStore.batch_of InMemoryEventStore.event_batch
      simp
    dsimp only
    rw [hbo]
    refine ⟨rfl, ?_, ?_⟩
    · simp [hr]
    · exact ⟨flush_sends bs (q.length / bs) q, rfl, by
        rw [flush_sends_events, hkbs, List.take_length]⟩
  · have hq1len : (q.drop (q.length / bs * bs)).length = q.length % bs := by
      simp [hsub]
    obtain ⟨p1, rest1, hq1⟩ :
        ∃ p1 rest1, q.drop (q.length / bs * bs) = p1 :: rest1 := by
      cases hq2 : q.drop (q.length / bs * bs) with
      | nil =>
        rw [hq2] at hq1len
        simp at hq1len
        omega
      | cons p1 rest1 => exact ⟨p1, rest1, rfl⟩
    have hmodlt : q.length % bs < bs := Nat.mod_lt _ (by omega)
    have hbo2 : (InMemoryEventStore.mk
          (InMemoryEventStoreQueue.mk (q.drop (q.length / bs * bs)) cap) bs).batch_of
          (q.drop (q.length / bs * bs)).length =
        (Except.ok
          { id := p1.eid,
            events := ((q.drop (q.length / bs * bs)).take
              (q.drop (q.length / bs * bs)).length).map payloadOf,
            delay := none, retry_attempts := 0 },
          InMemoryEventStore.mk
            (InMemoryEventStoreQueue.mk
              ((q.drop (q.length / bs * bs)).drop
                (q.drop (q.length / bs * bs)).length) cap) bs) := by
      unfold InMemoryEventStore.batch_of
      rw [if_neg (show ¬ (q.drop (q.length / bs * bs)).length <
          (q.drop (q.length / bs * bs)).length by omega)]
      exact event_batch_ok _ _ p1 rest1 hq1 (by rw [hq1len]; omega)
        (by
          show (q.drop (q.length / bs * bs)).length ≤ bs
          rw [hq1len]
          omega)
    dsimp only
    rw [hbo2]
    have hts2 : (EmitterChannel.mk (buf ++ flush_sends bs (q.length / bs) q) ccap
          false).try_send
          (EmitterMessage.send
            { id := p1.eid,
              events := ((q.drop (q.length / bs * bs)).take
                (q.drop (q.length / bs * bs)).length).map payloadOf,
              delay := none, retry_attempts := 0 }) =
        Except.ok (EmitterChannel.mk
          ((buf ++ flush_sends bs (q.length / bs) q) ++
            [EmitterMessage.send
              { id := p1.eid,
                events := ((q.drop (q.length / bs * bs)).take
                  (q.drop (q.length / bs * bs)).length).map payloadOf,
                delay := none, retry_attempts := 0 }]) ccap false) := by
      unfold EmitterChannel.try_send
      rw [if_neg (by simp)]
      rw [if_neg (show ¬ (buf ++ flush_sends bs (q.length / bs) q).length = ccap by
        simp [flush_sends_length]
        omega)]
    dsimp only
    rw [hts2]
    refine ⟨by simp; omega, by simp [hr], ?_⟩
    refine ⟨flush_sends bs (q.length / bs) q ++
      [EmitterMessage.send
        { id := p1.eid,
          events := ((q.drop (q.length / bs * bs)).take
            (q.drop (q.length / bs * bs)).length).map payloadOf,
          delay := none, retry_attempts := 0 }], by simp, ?_⟩
    rw [List.map_append, List.flatten_append, flush_sends_events]
    simp only [List.map_cons, List.map_nil, List.flatten_cons, List.flatten_nil,
      sent_events, List.append_nil, List.take_length]
    rw [← List.map_append, List.take_append_drop]

/-- Emitter state with three queued payloads, batch_size 2 and a roomy live
channel, used to instantiate the C5 theorem on a non-zero remainder. -/
def c5w_state : BatchEmitterState :=
  { event_store :=
      { event_queue := { queue := [⟨0, 0⟩, ⟨1, 0⟩, ⟨2, 0⟩], capacity := 4 },
        batch_size := 2 },
    tx := { buffer := [], capacity := 5, closed := false } }

/-- Witness for C5 (amended) at a store of length 3 with batch_size 2: flush
succeeds, the store empties, and the three payloads travel in the enqueued
Send commands. -/
theorem C5_flush_spec_witness :
    (1 ≤ c5w_state.event_store.batch_size) ∧
    c5w_state.tx.closed = false ∧
    (c5w_state.tx.buffer.length +
        c5w_state.event_store.len / c5w_state.event_store.batch_size + 1 ≤
      c5w_state.tx.capacity) ∧
    ((BatchEmitter.flush c5w_state).2.event_store.len = 0 ∧
      ((BatchEmitter.flush c5w_state).1 = Except.ok () ↔
        ¬ c5w_state.event_store.len % c5w_state.event_store.batch_size = 0) ∧
      (∃ msgs,
        (BatchEmitter.flush c5w_state).2.tx.buffer = c5w_state.tx.buffer ++ msgs ∧
        (msgs.map sent_events).flatten =
          c5w_state.event_store.event_queue.queue.map payloadOf)) :=
  ⟨by decide, rfl, by decide,
    C5_flush_spec c5w_state (by decide) rfl (by decide)⟩

/-- Emitter state with queue capacity 2 and batch_size 2, an empty store, and
an empty command channel sized to the store capacity as create_emitter sizes
it. -/
def c8_state : BatchEmitterState :=
  { event_store :=
      { event_queue := { queue := [], capacity := 2 }, batch_size := 2 },
    tx := { buffer := [], capacity := 2, closed := false } }

/-- C8: starting from an empty store with batch_size = capacity = 2, the first
add leaves the store length below batch_size and enqueues no Send command,
and the second add enqueues exactly one Send command carrying the two payloads
(finalised, in arrival order, the batch id taken from the first payload)
while the store length returns to 0. -/
theorem C8_add_spec (p1 p2 : PayloadBuilder) :
    (BatchEmitter.add c8_state p1).1 = Except.ok () ∧
    (BatchEmitter.add c8_state p1).2.tx.buffer = [] ∧
    (BatchEmitter.add c8_state p1).2.event_store.len = 1 ∧
    (BatchEmitter.add (BatchEmitter.add c8_state p1).2 p2).1 = Except.ok () ∧
    (BatchEmitter.add (BatchEmitter.add c8_state p1).2 p2).2.tx.buffer =
      [EmitterMessage.send
        { id := p1.eid, events := [payloadOf p1, payloadOf p2],
          delay := none, retry_attempts := 0 }] ∧
    (BatchEmitter.add (BatchEmitter.add c8_state p1).2 p2).2.event_store.len = 0 :=
  ⟨rfl, rfl, rfl, rfl, rfl, rfl⟩

/-- C10: when add succeeds in storing the payload and extracts a full batch
but try_send on the command channel fails (receiver closed or buffer full),
add returns an error, the extracted batch's payloads are already removed from
the event store and are not restored, and the channel is unchanged (so the
batch is in neither the store nor the channel). -/
theorem C10_add_send_failure (st : BatchEmitterState) (p : PayloadBuilder)
    (hadd : (st.event_store.add p).1 = Except.ok ())
    (hfull : ∃ b, ((st.event_store.add p).2.full_batch).1 = Except.ok b)
    (hsend : st.tx.closed = true ∨ st.tx.buffer.length = st.tx.capacity) :
    (∃ e, (BatchEmitter.add st p).1 = Except.error e) ∧
    (BatchEmitter.add st p).2.event_store =
      ((st.event_store.add p).2.full_batch).2 ∧
    (BatchEmitter.add st p).2.event_store.len =
      st.event_store.len + 1 - st.event_store.batch_size ∧
    (BatchEmitter.add st p).2.tx = st.tx := by
  obtain ⟨b, hb⟩ := hfull
  have hsend2 : ∃ e0, st.tx.try_send (EmitterMessage.send b) = Except.error e0 := by
    unfold EmitterChannel.try_send
    rcases hsend with hcl | hful
    · rw [if_pos hcl]
      exact ⟨_, rfl⟩
    · by_cases hcl : st.tx.closed
      · rw [if_pos hcl]
        exact ⟨_, rfl⟩
      · rw [if_neg hcl, if_pos hful]
        exact ⟨_, rfl⟩
  obtain ⟨e0, he0⟩ := hsend2
  have h1 : st.event_store.add p = (Except.ok (), (st.event_store.add p).2) := by
    cases h : st.event_store.add p with
    | mk r1 store1 =>
      rw [h] at hadd
      simp at hadd
      rw [hadd]
  have h2 : (st.event_store.add p).2.full_batch =
      (Except.ok b, ((st.event_store.add p).2.full_batch).2) := by
    cases h : (st.event_store.add p).2.full_batch with
    | mk r2 store2 =>
      rw [h] at hb
      simp at hb
      rw [hb]
  have hstep : BatchEmitter.add st p =
      (Except.error e0,
        { event_store := ((st.event_store.add p).2.full_batch).2, tx := st.tx }) := by
    unfold BatchEmitter.add
    rw [h1]
    simp only []
    rw [h2]
    simp only []
    rw [he0]
  rw [hstep]
  have hqadd := add_ok_spec st.event_store p hadd
  have hfbs := full_batch_ok_spec (st.event_store.add p).2 b hb
  refine ⟨⟨e0, rfl⟩, rfl, ?_, rfl⟩
  rw [hfbs.2.2.1]
  unfold InMemoryEventStore.len at *
  rw [hqadd]
  simp

/-- State used to instantiate C10: a store one payload short of a full batch
and a command channel whose buffer is at capacity. -/
def c10_state : BatchEmitterState :=
  { event_store :=
      { event_queue := { queue := [⟨3, 0⟩], capacity := 2 }, batch_size := 2 },
    tx := { buffer := [EmitterMessage.close], capacity := 1, closed := false } }

/-- Witness for C10: adding to c10_state completes the batch, the channel is
full, so add errors while the two payloads are gone from the store. -/
theorem C10_add_send_failure_witness :
    ((c10_state.event_store.add ⟨4, 0⟩).1 = Except.ok ()) ∧
    (∃ b, ((c10_state.event_store.add ⟨4, 0⟩).2.full_batch).1 = Except.ok b) ∧
    (c10_state.tx.closed = true ∨ c10_state.tx.buffer.length = c10_state.tx.capacity) ∧
    ((∃ e, (BatchEmitter.add c10_state ⟨4, 0⟩).1 = Except.error e) ∧
      (BatchEmitter.add c10_state ⟨4, 0⟩).2.event_store =
        ((c10_state.event_store.add ⟨4, 0⟩).2.full_batch).2 ∧
      (BatchEmitter.add c10_state ⟨4, 0⟩).2.event_store.len =
        c10_state.event_store.len + 1 - c10_state.event_store.batch_size ∧
      (BatchEmitter.add c10_state ⟨4, 0⟩).2.tx = c10_state.tx) :=
  ⟨rfl, ⟨{ id := 3, events := [⟨3, 0⟩, ⟨4, 0⟩], delay := none, retry_attempts := 0 }, rfl⟩,
    Or.inr rfl,
    C10_add_send_failure c10_state ⟨4, 0⟩ rfl
      ⟨{ id := 3, events := [⟨3, 0⟩, ⟨4, 0⟩], delay := none, retry_attempts := 0 }, rfl⟩
      (Or.inr rfl)⟩

/-- External inputs one spawned send task will consume: the transport's
eventual response for the batch (none models a transport failure with no
response, handled by the Err arm of send_batch,
src/emitter/batch_emitter.rs lines 294-308) and the random factor drawn in
update_for_retry if the batch is re-queued. -/
structure TaskSpec where
  batch : EventBatch
  response : Option Nat
  delay_mul : ℚ
deriving DecidableEq

/-- Terminal effect of one batch send task: delivered and acknowledged
(successful response, run_cleanup), dropped and acknowledged (failure with no
retry budget, run_cleanup), or re-queued on the retry channel. -/
inductive SendOutcome where
  | deliveredAck (b : EventBatch)
  | droppedAck (b : EventBatch)
  | requeued (b : EventBatch)
deriving DecidableEq

/-- Embedding of the decision structure of BatchEmitter::batch_send_task
(src/emitter/batch_emitter.rs lines 221-291): on a response, the pair
(should_retry code, has_retry policy) selects retry / drop-with-cleanup /
deliver-with-cleanup; on a transport error, retry when the policy still
permits it, else drop with cleanup.  A retry goes through retry_batch
(lines 185-198), which applies update_for_retry before posting the batch to
the retry channel. -/
def batch_send_task (retry_policy : RetryPolicy) (t : TaskSpec) : SendOutcome :=
  match t.response with
  | some code =>
    match BatchEmitter.should_retry code, t.batch.has_retry retry_policy with
    | true, true => .requeued (t.batch.update_for_retry t.delay_mul)
    | true, false => .droppedAck t.batch
    | false, _ => .deliveredAck t.batch
  | none =>
    if t.batch.has_retry retry_policy then
      .requeued (t.batch.update_for_retry t.delay_mul)
    else
      .droppedAck t.batch

/-- Messages of the worker-loop model: a Send carrying the batch together
with the external inputs its task will consume, or Close. -/
inductive WorkerMessage where
  | send (t : TaskSpec)
  | close
deriving DecidableEq

/-- Terminal account of a worker run: batches delivered and acknowledged,
batches dropped but acknowledged (observable policy-exhaustion drops),
batches silently lost on the retry channel at the break, Send commands
silently lost behind the Close on the command channel, and tasks cancelled by
dropping the runtime without a Close drain. -/
structure WorkerEnd where
  delivered : List EventBatch
  acknowledged_dropped : List EventBatch
  lost_retries : List EventBatch
  lost_pending : List EventBatch
  cancelled : List EventBatch
deriving DecidableEq

/-- Batch a task outcome re-queues, when it re-queues one. -/
def requeued_batch (o : SendOutcome) : Option EventBatch :=
  match o with
  | .requeued b => some b
  | _ => none

/-- Batch a task outcome delivers, when it delivers one. -/
def delivered_batch (o : SendOutcome) : Option EventBatch :=
  match o with
  | .deliveredAck b => some b
  | _ => none

/-- Batch a task outcome drops with acknowledgement, when it drops one. -/
def dropped_batch (o : SendOutcome) : Option EventBatch :=
  match o with
  | .droppedAck b => some b
  | _ => none

/-- Batch carried by a pending Send command. -/
def pending_send_batch (m : WorkerMessage) : Option EventBatch :=
  match m with
  | .send t => some t.batch
  | .close => none

/-- Model of the worker loop of BatchEmitter::start_tokio
(src/emitter/batch_emitter.rs lines 326-384) under the schedule in which
in-flight tasks complete only when the worker awaits them.  The loop receives
command messages in order, spawning and registering one task per Send
(line 355); on Close it awaits every registered task in order
(lines 371-378) — a completing task with retry budget left posts its updated
batch to the retry channel — and then breaks without reading the retry
channel or the rest of the command channel, so both are dropped with the
runtime (the source comments on lines 367-370 note that queued and retry
batches are lost at that point).  If the command channel is exhausted without
a Close (recv returns None, line 344), the loop breaks with tasks still
registered and the dropped runtime cancels them.  The schedule is one
admissible interleaving of the concurrent system: no task completes before
the worker blocks, so the biased retry arm of the select never fires before
the Close. -/
def run_worker (retry_policy : RetryPolicy) :
    List WorkerMessage → List TaskSpec → WorkerEnd
  | [], tasks =>
    { delivered := [], acknowledged_dropped := [], lost_retries := [],
      lost_pending := [], cancelled := tasks.map TaskSpec.batch }
  | .send t :: rest, tasks => run_worker retry_policy rest (tasks ++ [t])
  | .close :: rest, tasks =>
    let outcomes := tasks.map (batch_send_task retry_policy)
    { delivered := outcomes.filterMap delivered_batch,
      acknowledged_dropped := outcomes.filterMap dropped_batch,
      lost_retries := outcomes.filterMap requeued_batch,
      lost_pending := rest.filterMap pending_send_batch,
      cancelled := [] }

/-- Every task outcome is accounted exactly once among delivered, dropped and
re-queued. -/
theorem outcome_partition (os : List SendOutcome) :
    (os.filterMap delivered_batch).length + (os.filterMap dropped_batch).length +
      (os.filterMap requeued_batch).length = os.length := by
  induction os with
  | nil => rfl
  | cons o rest ih =>
    cases o <;>
      simp [delivered_batch, dropped_batch, requeued_batch,
        List.filterMap_cons] <;>
      omega

/-- Task whose batch is already submitted when the worker shuts down: its
Send command sits on the command channel behind the Close command. -/
def c9_task : TaskSpec :=
  { batch := EventBatch.new 7 [{ eid := 7, stm := 0 }],
    response := some 200, delay_mul := 1 }

/-- C9 counterexample: with a Send command already submitted on the command
channel behind the Close command, the worker stops with that batch neither
delivered nor acknowledged — it is silently lost with the dropped runtime, so
graceful shutdown does not account for every submitted batch. -/
theorem C9_close_counterexample :
    (run_worker (RetryPolicy.maxRetries 10)
      [WorkerMessage.close, WorkerMessage.send c9_task] []).lost_pending =
        [c9_task.batch] ∧
    (run_worker (RetryPolicy.maxRetries 10)
      [WorkerMessage.close, WorkerMessage.send c9_task] []).delivered = [] ∧
    (run_worker (RetryPolicy.maxRetries 10)
      [WorkerMessage.close, WorkerMessage.send c9_task] []).acknowledged_dropped =
        [] :=
  ⟨rfl, rfl, rfl⟩

/-- C9 (amended): after receiving Close the worker does await completion of
every registered in-flight send task before stopping — none is cancelled, and
each is accounted exactly once as delivered, dropped-with-acknowledgement, or
re-queued for retry — but shutdown does not drain the channels: the re-queued
retry batches and every Send command behind the Close are lost with the
runtime, so graceful shutdown can silently lose submitted or retried batches
(the close() documentation itself warns it may result in events being
lost). -/
theorem C9_close_spec (retry_policy : RetryPolicy) (tasks : List TaskSpec)
    (rest : List WorkerMessage) :
    (run_worker retry_policy (WorkerMessage.close :: rest) tasks).cancelled = [] ∧
    (run_worker retry_policy (WorkerMessage.close :: rest) tasks).delivered.length +
      (run_worker retry_policy (WorkerMessage.close :: rest) tasks).acknowledged_dropped.length +
      (run_worker retry_policy (WorkerMessage.close :: rest) tasks).lost_retries.length =
        tasks.length ∧
    (run_worker retry_policy (WorkerMessage.close :: rest) tasks).lost_retries =
      (tasks.map (batch_send_task retry_policy)).filterMap requeued_batch ∧
    (run_worker retry_policy (WorkerMessage.close :: rest) tasks).lost_pending =
      rest.filterMap pending_send_batch ∧
    (∀ t msgs ts, run_worker retry_policy (WorkerMessage.send t :: msgs) ts =
      run_worker retry_policy msgs (ts ++ [t])) := by
  refine ⟨rfl, ?_, rfl, rfl, fun t msgs ts => rfl⟩
  have h := outcome_partition (tasks.map (batch_send_task retry_policy))
  simpa [run_worker] using h

/-- C6: has_retry under MaxRetries(n) is true exactly while the batch's
attempt count is strictly below n (false once it equals or exceeds n);
has_retry under NoRetry is always false; has_retry under RetryForever is
always true. -/
theorem C6_has_retry_spec (b : EventBatch) (n : Nat) :
    (b.has_retry (RetryPolicy.maxRetries n) = true ↔ b.retry_attempts < n) ∧
    b.has_retry RetryPolicy.noRetry = false ∧
    b.has_retry RetryPolicy.retryForever = true := by
  refine ⟨?_, rfl, rfl⟩
  simp [EventBatch.has_retry]

/-- Invariant carried by a batch's backoff delay between retries: when set, it
is a non-negative duration no greater than the fixed ceiling.  It holds for a
fresh batch (delay unset) and is preserved by update_for_retry. -/
def delay_invariant (b : EventBatch) : Prop :=
  ∀ d, b.delay = some d → 0 ≤ d ∧ d ≤ EventBatch.max_event_delay_time

/-- C7 counterexample: the source draws the factor from the inclusive range
1.0..=3.0, so 3.0 itself can be drawn; the claim's half-open interval
[1.0, 3.0) excludes it. -/
theorem C7_backoff_counterexample :
    retry_delay_mul_can_draw 3 ∧ ¬ spec_delay_mul_range 3 := by
  constructor
  · exact ⟨by norm_num [retry_delay_mul_lo], by norm_num [retry_delay_mul_hi]⟩
  · intro h
    exact absurd h.2 (by norm_num)

/-- C7 (amended: the random factor is drawn from the closed interval
[1.0, 3.0], since the source's gen_range(1.0..=3.0) includes its upper bound):
each call to update_for_retry increments the attempt count by exactly 1; the
delay is never unset after the call; if the delay was unset it becomes 1
second, otherwise the prior delay is multiplied by the drawn factor and capped
at the fixed ceiling; the resulting delay never exceeds the ceiling and is
non-decreasing across consecutive retries of the same batch. -/
theorem C7_update_for_retry_spec (b : EventBatch) (f : ℚ)
    (hf : retry_delay_mul_can_draw f) (hinv : delay_invariant b) :
    (b.update_for_retry f).retry_attempts = b.retry_attempts + 1 ∧
    (b.update_for_retry f).delay.isSome = true ∧
    (b.delay = none → (b.update_for_retry f).delay = some 1) ∧
    (∀ d0, b.delay = some d0 →
      (b.update_for_retry f).delay =
        some (min (d0 * f) EventBatch.max_event_delay_time)) ∧
    (∀ d, (b.update_for_retry f).delay = some d →
      d ≤ EventBatch.max_event_delay_time) ∧
    (∀ d0 d1, b.delay = some d0 → (b.update_for_retry f).delay = some d1 →
      d0 ≤ d1) ∧
    delay_invariant (b.update_for_retry f) := by
  obtain ⟨hf1, hf3⟩ := hf
  rw [retry_delay_mul_lo] at hf1
  rw [retry_delay_mul_hi] at hf3
  cases hd : b.delay with
  | none =>
    refine ⟨rfl, ?_, ?_, ?_, ?_, ?_, ?_⟩
    · simp [EventBatch.update_for_retry, hd]
    · intro _
      simp [EventBatch.update_for_retry, hd]
    · intro d0 hd0
      simp [hd] at hd0
    · intro d hdd
      simp [EventBatch.update_for_retry, hd] at hdd
      subst hdd
      norm_num [EventBatch.max_event_delay_time]
    · intro d0 d1 hd0 _
      simp [hd] at hd0
    · intro d hdd
      simp [EventBatch.update_for_retry, hd] at hdd
      subst hdd
      norm_num [EventBatch.max_event_delay_time]
  | some d0 =>
    obtain ⟨hd0nn, hd0M⟩ := hinv d0 hd
    have hdnew : (b.update_for_retry f).delay =
        some (min (d0 * f) EventBatch.max_event_delay_time) := by
      simp [EventBatch.update_for_retry, hd]
    have hmulge : d0 ≤ d0 * f := le_mul_of_one_le_right hd0nn hf1
    have hmulnn : 0 ≤ d0 * f := le_trans hd0nn hmulge
    refine ⟨rfl, ?_, ?_, ?_, ?_, ?_, ?_⟩
    · simp [hdnew]
    · intro hnone
      simp [hd] at hnone
    · intro d0a hd0a
      simp at hd0a
      subst hd0a
      exact hdnew
    · intro d hdd
      rw [hdnew] at hdd
      simp at hdd
      subst hdd
      exact min_le_right _ _
    · intro d0a d1 hd0a hd1
      simp at hd0a
      subst hd0a
      rw [hdnew] at hd1
      simp at hd1
      subst hd1
      exact le_min hmulge hd0M
    · intro d hdd
      rw [hdnew] at hdd
      simp at hdd
      subst hdd
      constructor
      · exact le_min hmulnn (by norm_num [EventBatch.max_event_delay_time])
      · exact min_le_right _ _

/-- Batch with one prior retry and a one-second delay, used to instantiate the
C7 theorem. -/
def c7_batch : EventBatch :=
  { id := 0, events := [], delay := some 1, retry_attempts := 1 }

/-- Witness for C7 (amended) at the concrete batch c7_batch and factor 2. -/
theorem C7_update_for_retry_spec_witness :
    retry_delay_mul_can_draw 2 ∧ delay_invariant c7_batch ∧
    ((c7_batch.update_for_retry 2).retry_attempts = c7_batch.retry_attempts + 1 ∧
    (c7_batch.update_for_retry 2).delay.isSome = true ∧
    (c7_batch.delay = none → (c7_batch.update_for_retry 2).delay = some 1) ∧
    (∀ d0, c7_batch.delay = some d0 →
      (c7_batch.update_for_retry 2).delay =
        some (min (d0 * 2) EventBatch.max_event_delay_time)) ∧
    (∀ d, (c7_batch.update_for_retry 2).delay = some d →
      d ≤ EventBatch.max_event_delay_time) ∧
    (∀ d0 d1, c7_batch.delay = some d0 →
      (c7_batch.update_for_retry 2).delay = some d1 → d0 ≤ d1) ∧
    delay_invariant (c7_batch.update_for_retry 2)) :=
  have h1 : retry_delay_mul_can_draw 2 :=
    ⟨by norm_num [retry_delay_mul_lo], by norm_num [retry_delay_mul_hi]⟩
  have h2 : delay_invariant c7_batch := by
    intro d hd
    simp [c7_batch] at hd
    subst hd
    norm_num [EventBatch.max_event_delay_time]
  ⟨h1, h2, C7_update_for_retry_spec c7_batch 2 h1 h2⟩

end SnowplowRustTracker
